import Mathlib

/-!
Verification of the renuniq batch file-renaming utility (renuniq.py).

Strings are modelled as lists of characters (`Str`).  The template engine,
the substitution resolver (`Substitute.__getitem__`), the prefix computation
and the per-file rename loop are embedded as executable Lean functions that
mirror the Python source; the filesystem is an association list from path to
modification time, and the environment supplies the strftime formatter, the
current time and a permission oracle for the move primitive.
-/

namespace Renuniq

/-- Strings as lists of characters. -/
abbrev Str := List Char

/-- Coerce a Lean string literal to the `Str` representation. -/
def str (s : String) : Str := s.data

/-- ASCII single-quote character (39). -/
def squote : Char := Char.ofNat 39

/-- ASCII double-quote character (34). -/
def dquote : Char := Char.ofNat 34

/-- Python str.rfind restricted to a single character: index of the last
occurrence of c in s, or none (Python returns -1). -/
def rfind (c : Char) : Str → Option Nat
  | [] => none
  | x :: xs =>
    match rfind c xs with
    | some i => some (i + 1)
    | none => if x = c then some 0 else none

/-- Index one past the last path separator, 0 when there is none;
this is the value i = p.rfind(sep) + 1 used by posixpath basename/dirname. -/
def lastSepEnd (p : Str) : Nat :=
  match rfind '/' p with
  | some k => k + 1
  | none => 0

/-- os.path.basename: everything after the last path separator. -/
def basename (p : Str) : Str := p.drop (lastSepEnd p)

/-- Strip trailing slash characters (str.rstrip of the separator). -/
def rstripSlashes (s : Str) : Str := (s.reverse.dropWhile fun c => c == '/').reverse

/-- os.path.dirname: text before the last separator, with trailing slashes
removed unless the head consists only of slashes. -/
def dirname (p : Str) : Str :=
  let head := p.take (lastSepEnd p)
  if head ≠ [] ∧ head ≠ List.replicate head.length '/' then rstripSlashes head else head

/-- os.path.join for two components (posixpath.join). -/
def pathJoin (a b : Str) : Str :=
  if b.head? = some '/' then b
  else if a = [] ∨ a.getLast? = some '/' then a ++ b
  else a ++ '/' :: b

/-- os.path.isabs. -/
def isabs (p : Str) : Bool := p.head? = some '/'

/-- os.path.splitext (posixpath): split at the last extension separator,
except that dots at the very start of the basename are not treated as
extension separators. -/
def splitext (p : Str) : Str × Str :=
  match rfind '.' p with
  | none => (p, [])
  | some dotIndex =>
    let fIdx := lastSepEnd p
    if fIdx ≤ dotIndex then
      if ((p.drop fIdx).take (dotIndex - fIdx)).all (fun c => c == '.') then (p, [])
      else (p.take dotIndex, p.drop dotIndex)
    else (p, [])

/-- The split the specification describes for basenames: stem is everything
before the last extension separator, the extension starts at that separator. -/
def splitAtLastDot (p : Str) : Str × Str :=
  match rfind '.' p with
  | some i => (p.take i, p.drop i)
  | none => (p, [])

/-- Longest common leading substring of two strings. -/
def lcp2 : Str → Str → Str
  | a :: as, b :: bs => if a = b then a :: lcp2 as bs else []
  | _, _ => []

/-- os.path.commonprefix: character-wise longest common prefix of a list of
strings (empty for the empty list). -/
def commonPre : List Str → Str
  | [] => []
  | x :: xs => xs.foldl lcp2 x

/-- Lines 271-280 of renuniq.py: the batch-wide prefix used to strip every
basename.  For a single file the prefix is instead the basename up to the
last extension separator (empty when there is none).  The caller guarantees
a non-empty name list, so names[0] is modelled with headD. -/
def computePre (names : List Str) : Str :=
  let pathPre := commonPre names
  let dirPre := dirname pathPre
  let pre := basename pathPre
  let pre := if dirPre ≠ dirname (names.headD []) then [] else pre
  if names.length < 2 then
    match rfind '.' pre with
    | some extpos => pre.take extpos
    | none => []
  else pre

/-- The character for a decimal digit d < 10. -/
def digitChar (d : Nat) : Char := Char.ofNat (48 + d)

/-- Decimal representation of a natural number, most significant digit
first; the fuel argument bounds the recursion depth. -/
def natReprAux : Nat → Nat → Str
  | 0, _ => []
  | fuel + 1, n =>
    if n < 10 then [digitChar n] else natReprAux fuel (n / 10) ++ [digitChar (n % 10)]

/-- Decimal representation of a natural number (Python repr of a
nonnegative int). -/
def natRepr (n : Nat) : Str := natReprAux (n + 1) n

/-- Python repr of an int: a minus sign followed by digits when negative. -/
def intRepr (i : Int) : Str :=
  if i < 0 then '-' :: natRepr i.natAbs else natRepr i.natAbs

/-- The number of digits in the decimal representation of a natural number
(1 for zero). -/
def digitCount (n : Nat) : Nat := if n = 0 then 1 else Nat.log 10 n + 1

/-- Python format(i, '0{width}d'): decimal, left zero-padded to a minimum
total width including any minus sign; zeros go between the sign and the
digits and the number is never truncated. -/
def pyFormat0d (width : Nat) (i : Int) : Str :=
  let s := natRepr i.natAbs
  if i < 0 then '-' :: (List.replicate (width - 1 - s.length) '0' ++ s)
  else List.replicate (width - s.length) '0' ++ s

/-- The seven fixed keys of the per-file substitution dictionary. -/
def sevenKeys : List Str :=
  [str "UNIQSUFF", str "DIR", str "NAME", str "PATH", str "EXT",
   str "NOTEXT", str "DESC"]

/-- make_subst_dict (lines 117-136): the per-file substitution dictionary
built from the path, the batch prefix and the user descriptor. -/
def make_subst_dict (fn pre descriptor : Str) : List (Str × Str) :=
  let base := basename fn
  let direct := dirname fn
  let direct := pathJoin direct []
  let endname := base.drop pre.length
  let se := splitext base
  [(str "UNIQSUFF", endname), (str "DIR", direct), (str "NAME", base),
   (str "PATH", fn), (str "EXT", se.2), (str "NOTEXT", se.1),
   (str "DESC", descriptor)]

/-- Substitute.__getitem__ (lines 82-100): look the name up in the fixed
dictionary; otherwise rewrite NUM to NUM{num_width} and format the counter
at the width named by NUM1..NUM6; anything else raises KeyError(attr). -/
def substituteGet (d : List (Str × Str)) (number : Int) (numWidth : Nat)
    (attr : Str) : Except Str Str :=
  match d.lookup attr with
  | some v => .ok v
  | none =>
    let attr := if attr = str "NUM" then str "NUM" ++ natRepr numWidth else attr
    if attr = str "NUM1" then .ok (pyFormat0d 1 number)
    else if attr = str "NUM2" then .ok (pyFormat0d 2 number)
    else if attr = str "NUM3" then .ok (pyFormat0d 3 number)
    else if attr = str "NUM4" then .ok (pyFormat0d 4 number)
    else if attr = str "NUM5" then .ok (pyFormat0d 5 number)
    else if attr = str "NUM6" then .ok (pyFormat0d 6 number)
    else .error attr

/-- A character allowed inside a placeholder name ([A-Za-z_0-9]). -/
def isVarChar (c : Char) : Bool := c.isUpper || c.isLower || c.isDigit || c == '_'

/-- Try to match the placeholder pattern at the start of the string:
percent, open brace, zero or more name characters, close brace; returns the
captured name and the rest of the string. -/
def matchVar : Str → Option (Str × Str)
  | '%' :: '{' :: rest =>
    let name := rest.takeWhile isVarChar
    match rest.drop name.length with
    | '}' :: rest2 => some (name, rest2)
    | _ => none
  | _ => none

/-- Find the first placeholder match in the string, returning the literal
text before it, the captured name and the remainder (re.finditer semantics:
scan left to right, matches never overlap). -/
def findVar : Str → Option (Str × Str × Str)
  | [] => none
  | c :: rest =>
    match matchVar (c :: rest) with
    | some (name, rest2) => some ([], name, rest2)
    | none => (findVar rest).map fun x => (c :: x.1, x.2.1, x.2.2)

/-- Worker for substvars; the fuel bounds the number of matches, which is at
most the length of the string. -/
def substvarsAux (resolve : Str → Except Str Str) : Nat → Str → Except Str Str
  | 0, s => .ok s
  | fuel + 1, s =>
    match findVar s with
    | none => .ok s
    | some (lit, name, rest) =>
      match resolve name with
      | .error e => .error e
      | .ok v =>
        match substvarsAux resolve fuel rest with
        | .error e => .error e
        | .ok tail => .ok (lit ++ v ++ tail)

/-- substvars (lines 103-114): replace every placeholder in s by its
resolved value, keeping the literal text around the matches; the first
unresolvable name aborts the whole substitution (KeyError). -/
def substvars (resolve : Str → Except Str Str) (s : Str) : Except Str Str :=
  substvarsAux resolve s.length s

/-- A character that never needs shell quoting (shlex ASCII safe set). -/
def shlexSafeChar (c : Char) : Bool :=
  c.isAlphanum || c == '_' || c == '@' || c == '%' || c == '+' || c == '=' ||
  c == ':' || c == ',' || c == '.' || c == '/' || c == '-'

/-- shlex.quote: empty becomes two quotes, safe strings pass through,
anything else is wrapped in single quotes with embedded single quotes
replaced by the five-character escape. -/
def shlexQuote (s : Str) : Str :=
  if s = [] then [squote, squote]
  else if s.all shlexSafeChar then s
  else
    squote ::
      ((s.map fun c =>
        if c = squote then [squote, dquote, squote, dquote, squote] else [c]).flatten
       ++ [squote])

/-- The line printed for a move (line 330): mv, the quoted source, the
quoted destination. -/
def moveLine (f newpath : Str) : Str :=
  str "mv " ++ shlexQuote f ++ [' '] ++ shlexQuote newpath

/-- The filesystem: an association list from path to modification time. -/
abbrev FS := List (Str × Nat)

/-- os.path.exists against the modelled filesystem. -/
def fsExists (fs : FS) (p : Str) : Bool := (fs.lookup p).isSome

/-- getmtime (line 70): stat the file and read its mtime; fails (OSError)
when the path is absent. -/
def getmtime (fs : FS) (f : Str) : Option Nat := fs.lookup f

/-- Remove a path from the filesystem. -/
def fsErase (fs : FS) (p : Str) : FS := fs.filter fun e => !(e.1 == p)

/-- External collaborators: the strftime formatter, the current time, and a
permission oracle deciding whether a given move is allowed to succeed. -/
structure Env where
  strftime : Str → Nat → Str
  timeNow : Nat
  movePermitted : Str → Str → Bool

/-- safemove (lines 139-148): move a file; fails (PermissionError) when the
oracle forbids it or the source does not exist. -/
def safemove (env : Env) (fs : FS) (fr dst : Str) : Option FS :=
  if env.movePermitted fr dst then
    match fs.lookup fr with
    | some m => some ((dst, m) :: fsErase fs fr)
    | none => none
  else none

/-- The options of the rename loop after command-line parsing, config
loading and default-template selection. -/
structure Opts where
  names : List Str
  template : Str
  descriptor : Str := []
  strftime_enable : Bool := true
  dry_run : Bool := false
  count : Int := 1
  interval : Int := 1
  use_time_now : Bool := false

/-- One record per Substitute construction: the file, the counter passed as
num, and the width passed as num_width (line 304). -/
structure TraceEntry where
  file : Str
  counter : Int
  width : Nat
deriving DecidableEq

/-- The mutable state of the rename loop: the filesystem, the running
counter, the error count, the stdout lines, the invocations of the move
primitive, and the trace of Substitute constructions. -/
structure LoopState where
  fs : FS
  count : Int
  errors : Nat
  output : List Str
  moveCalls : List (Str × Str)
  trace : List TraceEntry
deriving DecidableEq

/-- Lines 315-323: apply strftime to the expanded name when enabled, then
resolve the destination: absolute names are used verbatim, otherwise the
name is joined to the source file's directory. -/
def destPath (opts : Opts) (env : Env) (f : Str) (times : Nat)
    (newname0 : Str) : Str :=
  let newname := if opts.strftime_enable then env.strftime newname0 times else newname0
  if isabs newname then newname else pathJoin (dirname f) newname

/-- The body of the per-file loop (lines 294-338).  Stat failure skips the
file before the counter advances; a substitution error, an existing
destination and a failed move each skip the file after it. -/
def step (opts : Opts) (pre : Str) (numWidth : Nat) (env : Env)
    (s : LoopState) (f : Str) : LoopState :=
  let timesRes : Option Nat :=
    if opts.strftime_enable && !opts.use_time_now then getmtime s.fs f
    else some env.timeNow
  match timesRes with
  | none => { s with errors := s.errors + 1 }
  | some times =>
    let cnt := s.count
    let s1 := { s with count := s.count + opts.interval,
                       trace := s.trace ++ [TraceEntry.mk f cnt numWidth] }
    match substvars (substituteGet (make_subst_dict f pre opts.descriptor) cnt numWidth)
        opts.template with
    | .error _ => { s1 with errors := s1.errors + 1 }
    | .ok newname0 =>
      let newpath := destPath opts env f times newname0
      if fsExists s1.fs newpath then { s1 with errors := s1.errors + 1 }
      else
        let s2 := { s1 with output := s1.output ++ [moveLine f newpath] }
        if opts.dry_run then s2
        else
          let s3 := { s2 with moveCalls := s2.moveCalls ++ [(f, newpath)] }
          match safemove env s2.fs f newpath with
          | some fs2 => { s3 with fs := fs2 }
          | none => { s3 with errors := s3.errors + 1 }

/-- The stdout lines the loop body produces for one file, written without
consulting dry_run (the print at line 330 happens before the dry-run test). -/
def stepPrint (opts : Opts) (pre : Str) (numWidth : Nat) (env : Env)
    (s : LoopState) (f : Str) : List Str :=
  let timesRes : Option Nat :=
    if opts.strftime_enable && !opts.use_time_now then getmtime s.fs f
    else some env.timeNow
  match timesRes with
  | none => []
  | some times =>
    match substvars (substituteGet (make_subst_dict f pre opts.descriptor) s.count numWidth)
        opts.template with
    | .error _ => []
    | .ok newname0 =>
      let newpath := destPath opts env f times newname0
      if fsExists s.fs newpath then [] else [moveLine f newpath]

/-- The initial loop state. -/
def initState (fs : FS) (opts : Opts) : LoopState :=
  { fs := fs, count := opts.count, errors := 0, output := [], moveCalls := [],
    trace := [] }

/-- countmax (line 289): the final counter value in the sequence. -/
def countmaxOf (opts : Opts) : Int :=
  opts.count + opts.interval * ((opts.names.length : Int) - 1)

/-- len(repr(countmax)) (line 304): the batch-wide automatic number width. -/
def numWidthOf (opts : Opts) : Nat := (intRepr (countmaxOf opts)).length

/-- The rename loop (lines 271-338): compute the batch prefix and the
number width once, then fold the per-file body over the names in order. -/
def renameLoop (opts : Opts) (env : Env) (fs : FS) : LoopState :=
  opts.names.foldl (step opts (computePre opts.names) (numWidthOf opts) env)
    (initState fs opts)

/-- Line 340: exit status 1 when any per-file error occurred, else 0. -/
def returnCode (opts : Opts) (env : Env) (fs : FS) : Nat :=
  if (renameLoop opts env fs).errors = 0 then 0 else 1

/-- The arithmetic progression of counter values the specification promises:
start, start + inc, start + 2 inc, ... (n terms). -/
def counterSeq (start inc : Int) (n : Nat) : List Int :=
  (List.range n).map fun j => start + inc * (j : Int)


/-- An environment where strftime is the identity formatter, the current time
is 0 and every move is permitted. -/
def idEnv : Env :=
  { strftime := fun s _ => s, timeNow := 0, movePermitted := fun _ _ => true }

/-- C1 batch: the first named file does not exist, so its stat fails. -/
def c1opts : Opts := { names := [str "XYZZY", str "a"], template := str "TST_%{NUM}" }

/-- C1 filesystem: only the second named file exists. -/
def c1fs : FS := [(str "a", 0)]

/-- C1 witness batch: strftime substitution disabled, so no stat occurs. -/
def w1opts : Opts :=
  { names := [str "a", str "b"], template := [], strftime_enable := false }

/-- C1 witness filesystem: empty, the moves fail but the counters advance. -/
def w1fs : FS := []

/-- C2 batch: one file with counter start 1000000, so the final counter has
seven digits. -/
def c2opts : Opts := { names := [str "a"], template := str "%{NUM}", count := 1000000 }

/-- C3 witness batch: two files with the default start and increment. -/
def w3opts : Opts := { names := [str "a", str "b"], template := str "%{NUM}" }

/-- Equality of resolution results is decidable. -/
instance : DecidableEq (Except Str Str)
  | .error a, .error b =>
    if h : a = b then .isTrue (congrArg Except.error h)
    else .isFalse fun hh => h (Except.error.inj hh)
  | .error _, .ok _ => .isFalse fun hh => Except.noConfusion hh
  | .ok _, .error _ => .isFalse fun hh => Except.noConfusion hh
  | .ok a, .ok b =>
    if h : a = b then .isTrue (congrArg Except.ok h)
    else .isFalse fun hh => h (Except.ok.inj hh)

/-- C4 batch: a template naming the unknown variable XYZZY. -/
def c4opts : Opts := { names := [str "a", str "b"], template := str "RENAMED_%{XYZZY}" }

/-- C4 filesystem: both named files exist. -/
def c4fs : FS := [(str "a", 0), (str "b", 0)]

/-- C5 batch: the first two files map to the same destination ".qe". -/
def c5opts : Opts :=
  { names := [str "x.q", str "y.q", str "z"], template := str "%{EXT}e",
    strftime_enable := false }

/-- C5 filesystem: the three named files exist. -/
def c5fs : FS := [(str "x.q", 0), (str "y.q", 0), (str "z", 0)]

/-- C5 witness state: the destination ".qe" of y.q already exists. -/
def s5 : LoopState := initState [(str "y.q", 0), (str ".qe", 0)] c5opts

/-- C8 witness batch: a dry run renaming a to b. -/
def w8opts : Opts :=
  { names := [str "a"], template := str "b", dry_run := true, strftime_enable := false }

/-- C8 witness filesystem. -/
def w8fs : FS := [(str "a", 0)]

/-! ### Helper lemmas -/

theorem substvarsAux_succ (resolve : Str → Except Str Str) (fuel : Nat) (s : Str) :
    substvarsAux resolve (fuel + 1) s
      = match findVar s with
        | none => .ok s
        | some (lit, name, rest) =>
          match resolve name with
          | .error e => .error e
          | .ok v =>
            match substvarsAux resolve fuel rest with
            | .error e => .error e
            | .ok tail => .ok (lit ++ v ++ tail) := rfl

theorem rfind_spec (c : Char) : ∀ (s : Str) (i : Nat), rfind c s = some i →
    i < s.length ∧ s[i]? = some c := by
  intro s
  induction s with
  | nil => intro i h; simp [rfind] at h
  | cons x xs ih =>
    intro i h
    simp only [rfind] at h
    cases hr : rfind c xs with
    | some j =>
      rw [hr] at h
      simp only [Option.some.injEq] at h
      have hj := ih j hr
      refine ⟨by simp; omega, ?_⟩
      rw [← h]
      simpa using hj.2
    | none =>
      rw [hr] at h
      by_cases hxc : x = c
      · subst hxc
        simp at h
        subst h
        simp
      · simp [hxc] at h

theorem rfind_none (c : Char) : ∀ (s : Str), c ∉ s → rfind c s = none := by
  intro s
  induction s with
  | nil => intro h; rfl
  | cons x xs ih =>
    intro h
    simp only [List.mem_cons, not_or] at h
    simp only [rfind, ih h.2]
    have hxc : ¬ x = c := fun he => h.1 he.symm
    simp [hxc]

theorem lookup_make_none (fn pre dd a : Str) (h : a ∉ sevenKeys) :
    (make_subst_dict fn pre dd).lookup a = none := by
  simp only [sevenKeys, List.mem_cons, not_or, List.not_mem_nil] at h
  obtain ⟨h1, h2, h3, h4, h5, h6, h7, -⟩ := h
  simp [make_subst_dict, List.lookup, beq_eq_false_iff_ne.mpr h1,
    beq_eq_false_iff_ne.mpr h2, beq_eq_false_iff_ne.mpr h3, beq_eq_false_iff_ne.mpr h4,
    beq_eq_false_iff_ne.mpr h5, beq_eq_false_iff_ne.mpr h6, beq_eq_false_iff_ne.mpr h7]

theorem lookup_make_uniqsuff (fn pre dd : Str) :
    (make_subst_dict fn pre dd).lookup (str "UNIQSUFF")
      = some ((basename fn).drop pre.length) := by
  simp [make_subst_dict, List.lookup]

theorem lookup_make_ext (fn pre dd : Str) :
    (make_subst_dict fn pre dd).lookup (str "EXT")
      = some (splitext (basename fn)).2 := by
  simp [make_subst_dict, List.lookup, str]

theorem lookup_make_notext (fn pre dd : Str) :
    (make_subst_dict fn pre dd).lookup (str "NOTEXT")
      = some (splitext (basename fn)).1 := by
  simp [make_subst_dict, List.lookup, str]

theorem step_count_trace (opts : Opts) (pre : Str) (w : Nat) (env : Env)
    (s : LoopState) (f : Str) :
    ((step opts pre w env s f).count = s.count ∧ (step opts pre w env s f).trace = s.trace
       ∧ (step opts pre w env s f).errors = s.errors + 1)
    ∨ ((step opts pre w env s f).count = s.count + opts.interval ∧
       (step opts pre w env s f).trace = s.trace ++ [TraceEntry.mk f s.count w]) := by
  simp only [step]
  repeat' split
  all_goals first | (left; exact ⟨rfl, rfl, rfl⟩) | (right; exact ⟨rfl, rfl⟩)

theorem step_stat_fail (opts : Opts) (pre : Str) (w : Nat) (env : Env)
    (s : LoopState) (f : Str)
    (hc : (opts.strftime_enable && !opts.use_time_now) = true)
    (hm : getmtime s.fs f = none) :
    step opts pre w env s f = { s with errors := s.errors + 1 } := by
  simp only [step, hc, if_pos, hm]

theorem step_no_stat (opts : Opts) (pre : Str) (w : Nat) (env : Env)
    (s : LoopState) (f : Str)
    (hc : (opts.strftime_enable && !opts.use_time_now) = false) :
    (step opts pre w env s f).count = s.count + opts.interval ∧
    (step opts pre w env s f).trace = s.trace ++ [TraceEntry.mk f s.count w] := by
  simp only [step, hc, Bool.false_eq_true, if_false]
  repeat' split
  all_goals exact ⟨rfl, rfl⟩

theorem step_subst_fail (opts : Opts) (pre : Str) (w : Nat) (env : Env)
    (s : LoopState) (f : Str) (t : Nat) (e : Str)
    (ht : (if (opts.strftime_enable && !opts.use_time_now) = true
           then getmtime s.fs f else some env.timeNow) = some t)
    (hs : substvars (substituteGet (make_subst_dict f pre opts.descriptor) s.count w)
            opts.template = .error e) :
    step opts pre w env s f =
      { s with count := s.count + opts.interval,
               trace := s.trace ++ [TraceEntry.mk f s.count w],
               errors := s.errors + 1 } := by
  simp only [step, ht, hs]

theorem step_dest_exists (opts : Opts) (pre : Str) (w : Nat) (env : Env)
    (s : LoopState) (f : Str) (t : Nat) (nn : Str)
    (ht : (if (opts.strftime_enable && !opts.use_time_now) = true
           then getmtime s.fs f else some env.timeNow) = some t)
    (hs : substvars (substituteGet (make_subst_dict f pre opts.descriptor) s.count w)
            opts.template = .ok nn)
    (he : fsExists s.fs (destPath opts env f t nn) = true) :
    step opts pre w env s f =
      { s with count := s.count + opts.interval,
               trace := s.trace ++ [TraceEntry.mk f s.count w],
               errors := s.errors + 1 } := by
  simp only [step, ht, hs, he, if_pos]

theorem step_move_reach (opts : Opts) (pre : Str) (w : Nat) (env : Env)
    (s : LoopState) (f : Str) (t : Nat) (nn : Str)
    (ht : (if (opts.strftime_enable && !opts.use_time_now) = true
           then getmtime s.fs f else some env.timeNow) = some t)
    (hs : substvars (substituteGet (make_subst_dict f pre opts.descriptor) s.count w)
            opts.template = .ok nn)
    (he : fsExists s.fs (destPath opts env f t nn) = false) :
    (step opts pre w env s f).output = s.output ++ [moveLine f (destPath opts env f t nn)] := by
  simp only [step, ht, hs, he, Bool.false_eq_true, if_false]
  repeat' split
  all_goals rfl

theorem step_dry (opts : Opts) (pre : Str) (w : Nat) (env : Env)
    (s : LoopState) (f : Str) (h : opts.dry_run = true) :
    (step opts pre w env s f).fs = s.fs ∧
    (step opts pre w env s f).moveCalls = s.moveCalls := by
  simp only [step, h]
  repeat' split
  all_goals simp_all

theorem step_output (opts : Opts) (pre : Str) (w : Nat) (env : Env)
    (s : LoopState) (f : Str) :
    (step opts pre w env s f).output = s.output ++ stepPrint opts pre w env s f := by
  simp only [step, stepPrint]
  repeat' split
  all_goals simp_all

theorem stepPrint_dry (opts : Opts) (b : Bool) (pre : Str) (w : Nat) (env : Env)
    (s : LoopState) (f : Str) :
    stepPrint { opts with dry_run := b } pre w env s f = stepPrint opts pre w env s f := rfl

theorem counterSeq_succ (start inc : Int) (n : Nat) :
    counterSeq start inc (n + 1) = counterSeq start inc n ++ [start + inc * (n : Int)] := by
  simp [counterSeq, List.range_succ]

theorem loop_counters (opts : Opts) (pre : Str) (w : Nat) (env : Env) :
    ∀ (l : List Str) (s : LoopState),
      s.count = opts.count + opts.interval * s.trace.length →
      s.trace.map TraceEntry.counter = counterSeq opts.count opts.interval s.trace.length →
      (List.foldl (step opts pre w env) s l).count
        = opts.count + opts.interval * (List.foldl (step opts pre w env) s l).trace.length ∧
      (List.foldl (step opts pre w env) s l).trace.map TraceEntry.counter
        = counterSeq opts.count opts.interval
            (List.foldl (step opts pre w env) s l).trace.length := by
  intro l
  induction l with
  | nil => intro s h1 h2; exact ⟨h1, h2⟩
  | cons f rest ih =>
    intro s h1 h2
    simp only [List.foldl_cons]
    rcases step_count_trace opts pre w env s f with ⟨hc, htr, -⟩ | ⟨hc, htr⟩
    · exact ih _ (by rw [hc, htr]; exact h1) (by rw [htr]; exact h2)
    · apply ih
      · rw [hc, htr]
        simp only [List.length_append, List.length_cons, List.length_nil]
        rw [h1]
        push_cast
        ring
      · rw [htr]
        simp only [List.map_append, List.length_append, List.map_cons, List.map_nil,
          List.length_cons, List.length_nil]
        have hlen : s.trace.length + (0 + 1) = s.trace.length + 1 := by omega
        rw [h2, hlen, counterSeq_succ]
        simp [h1]

theorem loop_files (opts : Opts) (pre : Str) (w : Nat) (env : Env)
    (hc : (opts.strftime_enable && !opts.use_time_now) = false) :
    ∀ (l : List Str) (s : LoopState),
      (List.foldl (step opts pre w env) s l).trace.map TraceEntry.file
        = s.trace.map TraceEntry.file ++ l := by
  intro l
  induction l with
  | nil => intro s; simp
  | cons f rest ih =>
    intro s
    simp only [List.foldl_cons]
    rw [ih]
    rw [(step_no_stat opts pre w env s f hc).2]
    simp

theorem loop_width (opts : Opts) (pre : Str) (w : Nat) (env : Env) :
    ∀ (l : List Str) (s : LoopState),
      (∀ e ∈ s.trace, e.width = w) →
      ∀ e ∈ (List.foldl (step opts pre w env) s l).trace, e.width = w := by
  intro l
  induction l with
  | nil => intro s h; exact h
  | cons f rest ih =>
    intro s h
    simp only [List.foldl_cons]
    apply ih
    rcases step_count_trace opts pre w env s f with ⟨-, htr, -⟩ | ⟨-, htr⟩
    · rw [htr]; exact h
    · rw [htr]
      intro e he
      rcases List.mem_append.1 he with h1 | h1
      · exact h e h1
      · simp at h1
        rw [h1]

theorem loop_dry (opts : Opts) (pre : Str) (w : Nat) (env : Env)
    (h : opts.dry_run = true) :
    ∀ (l : List Str) (s : LoopState),
      (List.foldl (step opts pre w env) s l).fs = s.fs ∧
      (List.foldl (step opts pre w env) s l).moveCalls = s.moveCalls := by
  intro l
  induction l with
  | nil => intro s; exact ⟨rfl, rfl⟩
  | cons f rest ih =>
    intro s
    simp only [List.foldl_cons]
    obtain ⟨hfs, hmc⟩ := ih (step opts pre w env s f)
    obtain ⟨hfs2, hmc2⟩ := step_dry opts pre w env s f h
    exact ⟨hfs.trans hfs2, hmc.trans hmc2⟩


theorem natReprAux_succ (fuel n : Nat) :
    natReprAux (fuel + 1) n
      = if n < 10 then [digitChar n] else natReprAux fuel (n / 10) ++ [digitChar (n % 10)] :=
  rfl

theorem digitCount_div10 (n : Nat) (h : 10 ≤ n) :
    digitCount n = digitCount (n / 10) + 1 := by
  have hn : n ≠ 0 := by omega
  have hd : n / 10 ≠ 0 := by
    have := Nat.one_le_div_iff (by norm_num : 0 < 10) |>.2 h
    omega
  have hlog : Nat.log 10 (n / 10) = Nat.log 10 n - 1 := Nat.log_div_base 10 n
  have hpos : 0 < Nat.log 10 n := Nat.log_pos (by norm_num) h
  simp only [digitCount, hn, hd, if_false]
  omega

theorem natReprAux_length : ∀ (f n : Nat), n < 10 ^ f →
    (natReprAux (f + 1) n).length = digitCount n := by
  intro f
  induction f with
  | zero =>
    intro n h
    have h0 : n = 0 := by simpa using h
    subst h0
    simp [natReprAux_succ, digitCount]
  | succ f ih =>
    intro n h
    by_cases hn : n < 10
    · rw [natReprAux_succ, if_pos hn]
      simp only [List.length_singleton, digitCount]
      by_cases h0 : n = 0
      · simp [h0]
      · have hl : Nat.log 10 n = 0 := Nat.log_eq_zero_iff.2 (Or.inl hn)
        simp [h0, hl]
    · rw [natReprAux_succ, if_neg hn, List.length_append, List.length_singleton]
      have hdiv : n / 10 < 10 ^ f := by
        rw [Nat.div_lt_iff_lt_mul (by norm_num : (0:Nat) < 10)]
        calc n < 10 ^ (f + 1) := h
        _ = 10 ^ f * 10 := by ring
      rw [ih (n / 10) hdiv, digitCount_div10 n (by omega)]

theorem natRepr_length (n : Nat) : (natRepr n).length = digitCount n :=
  natReprAux_length n n (Nat.lt_pow_self (by norm_num) n)

theorem natRepr_ne_nil (n : Nat) : natRepr n ≠ [] := by
  rw [natRepr, natReprAux_succ]
  split
  · simp
  · simp

theorem intRepr_length_nonneg (i : Int) (h : 0 ≤ i) :
    (intRepr i).length = digitCount i.toNat := by
  rw [intRepr, if_neg (by omega), natRepr_length]
  congr 1
  omega

theorem pyFormat0d_length (w : Nat) (i : Int) :
    (pyFormat0d w i).length = max w (intRepr i).length := by
  simp only [pyFormat0d, intRepr]
  by_cases h : i < 0
  · simp only [if_pos h, List.length_cons, List.length_append, List.length_replicate]
    omega
  · simp only [if_neg h, List.length_append, List.length_replicate]
    omega

theorem pyFormat0d_no_trunc (w : Nat) (i : Int) (h : w ≤ (intRepr i).length) :
    pyFormat0d w i = intRepr i := by
  simp only [pyFormat0d, intRepr] at *
  by_cases hneg : i < 0
  · simp only [if_pos hneg] at *
    simp only [List.length_cons] at h
    have h0 : w - 1 - (natRepr i.natAbs).length = 0 := by omega
    rw [h0]
    simp
  · simp only [if_neg hneg] at *
    have h0 : w - (natRepr i.natAbs).length = 0 := by omega
    rw [h0]
    simp

theorem pyFormat0d_pad (w : Nat) (i : Int) (h : 0 ≤ i) :
    pyFormat0d w i = List.replicate (w - (intRepr i).length) '0' ++ intRepr i := by
  simp only [pyFormat0d, intRepr, if_neg (by omega : ¬ i < 0)]


theorem NUM_append_not_in (x : Str) : (str "NUM" ++ x) ∉ sevenKeys := by
  simp [sevenKeys, str]

theorem NUM_append_ne_NUM (x : Str) (hx : x ≠ []) : str "NUM" ++ x ≠ str "NUM" := by
  intro h
  apply hx
  have h2 : str "NUM" ++ x = str "NUM" ++ [] := by simpa using h
  exact List.append_cancel_left h2

theorem substituteGet_NUM_rewrite (fn pre dd : Str) (num : Int) (w : Nat) :
    substituteGet (make_subst_dict fn pre dd) num w (str "NUM")
      = substituteGet (make_subst_dict fn pre dd) num w (str "NUM" ++ natRepr w) := by
  rw [substituteGet, substituteGet,
    lookup_make_none fn pre dd (str "NUM") (by decide),
    lookup_make_none fn pre dd (str "NUM" ++ natRepr w) (NUM_append_not_in _)]
  have hne : str "NUM" ++ natRepr w ≠ str "NUM" :=
    NUM_append_ne_NUM (natRepr w) (natRepr_ne_nil w)
  simp [hne]

theorem substituteGet_NUMn (fn pre dd : Str) (num : Int) (w : Nat) (n : Nat)
    (h1 : 1 ≤ n) (h2 : n ≤ 6) :
    substituteGet (make_subst_dict fn pre dd) num w (str "NUM" ++ natRepr n)
      = .ok (pyFormat0d n num) := by
  interval_cases n
  · rw [(by decide : str "NUM" ++ natRepr 1 = str "NUM1"),
      substituteGet, lookup_make_none fn pre dd (str "NUM1") (by decide)]
    simp [str]
  · rw [(by decide : str "NUM" ++ natRepr 2 = str "NUM2"),
      substituteGet, lookup_make_none fn pre dd (str "NUM2") (by decide)]
    simp [str]
  · rw [(by decide : str "NUM" ++ natRepr 3 = str "NUM3"),
      substituteGet, lookup_make_none fn pre dd (str "NUM3") (by decide)]
    simp [str]
  · rw [(by decide : str "NUM" ++ natRepr 4 = str "NUM4"),
      substituteGet, lookup_make_none fn pre dd (str "NUM4") (by decide)]
    simp [str]
  · rw [(by decide : str "NUM" ++ natRepr 5 = str "NUM5"),
      substituteGet, lookup_make_none fn pre dd (str "NUM5") (by decide)]
    simp [str]
  · rw [(by decide : str "NUM" ++ natRepr 6 = str "NUM6"),
      substituteGet, lookup_make_none fn pre dd (str "NUM6") (by decide)]
    simp [str]

theorem substituteGet_NUM_width (fn pre dd : Str) (num : Int) (w : Nat)
    (h1 : 1 ≤ w) (h2 : w ≤ 6) :
    substituteGet (make_subst_dict fn pre dd) num w (str "NUM") = .ok (pyFormat0d w num) := by
  rw [substituteGet_NUM_rewrite]
  exact substituteGet_NUMn fn pre dd num w w h1 h2

theorem substituteGet_unknown (fn pre dd : Str) (num : Int) (w : Nat) (a : Str)
    (h1 : a ∉ sevenKeys) (h2 : a ≠ str "NUM")
    (h3 : a ∉ [str "NUM1", str "NUM2", str "NUM3", str "NUM4", str "NUM5", str "NUM6"]) :
    substituteGet (make_subst_dict fn pre dd) num w a = .error a := by
  simp only [List.mem_cons, not_or, List.not_mem_nil] at h3
  obtain ⟨n1, n2, n3, n4, n5, n6, -⟩ := h3
  rw [substituteGet, lookup_make_none fn pre dd a h1]
  simp [h2, n1, n2, n3, n4, n5, n6]

/-! ### Claim theorems -/

/-- C6: For a batch of exactly one input path, the prefix is everything in the
basename up to and not including the final extension separator, or empty when
the basename has no dot; consequently UNIQSUFF for the single file is the
trailing part of the basename from the final dot on (its extension including
the leading dot), or the whole basename when there is no dot. -/
theorem C6_single_file (name dd : Str) :
    (∀ i, rfind '.' (basename name) = some i →
        computePre [name] = (basename name).take i ∧
        (make_subst_dict name (computePre [name]) dd).lookup (str "UNIQSUFF")
          = some ((basename name).drop i)) ∧
    (rfind '.' (basename name) = none →
        computePre [name] = [] ∧
        (make_subst_dict name (computePre [name]) dd).lookup (str "UNIQSUFF")
          = some (basename name)) := by
  have hcp : computePre [name]
      = (match rfind '.' (basename name) with
         | some extpos => (basename name).take extpos
         | none => []) := by
    simp [computePre, commonPre]
  constructor
  · intro i h
    have hi := (rfind_spec '.' (basename name) i h).1
    have hpre : computePre [name] = (basename name).take i := by rw [hcp, h]
    refine ⟨hpre, ?_⟩
    rw [lookup_make_uniqsuff, hpre, List.length_take, Nat.min_eq_left (Nat.le_of_lt hi)]
  · intro h
    have hpre : computePre [name] = [] := by rw [hcp, h]
    refine ⟨hpre, ?_⟩
    rw [lookup_make_uniqsuff, hpre]
    simp

/-- C6 witness: renaming only file4.x gives prefix file4 and UNIQSUFF ".x". -/
theorem C6_witness :
    rfind '.' (basename (str "file4.x")) = some 5 ∧
    computePre [str "file4.x"] = str "file4" ∧
    (make_subst_dict (str "file4.x") (computePre [str "file4.x"]) []).lookup (str "UNIQSUFF")
      = some (str ".x") := by
  refine ⟨by decide, ?_, ?_⟩
  · have h := ((C6_single_file (str "file4.x") []).1 5 (by decide)).1
    rw [h]
    decide
  · have h := ((C6_single_file (str "file4.x") []).1 5 (by decide)).2
    rw [h]
    decide

/-- C7: For every file, UNIQSUFF is the unconditional character-count slice
basename[len(prefix):], computed with the single batch-wide prefix even when
the basename does not start with it; when the prefix is at least as long as
the basename the slice clamps to the empty string and never errors. -/
theorem C7_uniqsuff_slice (fn pre dd : Str) :
    (make_subst_dict fn pre dd).lookup (str "UNIQSUFF")
        = some ((basename fn).drop pre.length) ∧
    ((basename fn).length ≤ pre.length →
      (make_subst_dict fn pre dd).lookup (str "UNIQSUFF") = some []) := by
  refine ⟨lookup_make_uniqsuff fn pre dd, fun h => ?_⟩
  rw [lookup_make_uniqsuff fn pre dd, List.drop_eq_nil_of_le h]

/-- C7 witness: a prefix longer than the basename yields an empty UNIQSUFF. -/
theorem C7_witness :
    (basename (str "ab")).length ≤ (str "xyz").length ∧
    (make_subst_dict (str "ab") (str "xyz") []).lookup (str "UNIQSUFF") = some [] :=
  ⟨by decide, (C7_uniqsuff_slice (str "ab") (str "xyz") []).2 (by decide)⟩

/-- C9 counterexample: the basename ".bashrc" contains an extension separator
(at index 0), yet splitext does not split at it: the stem is the whole
basename and the extension is empty, not ("", ".bashrc") as a split at the
last separator would give, so EXT is "" and NOTEXT is ".bashrc". -/
theorem C9_counterexample :
    rfind '.' (str ".bashrc") = some 0 ∧
    splitext (str ".bashrc") = (str ".bashrc", []) ∧
    splitAtLastDot (str ".bashrc") = ([], str ".bashrc") ∧
    splitext (str ".bashrc") ≠ splitAtLastDot (str ".bashrc") ∧
    (make_subst_dict (str ".bashrc") [] []).lookup (str "EXT") = some [] ∧
    (make_subst_dict (str ".bashrc") [] []).lookup (str "NOTEXT") = some (str ".bashrc") := by
  decide

/-- C9 (amended): extension splitting always satisfies stem ++ ext = basename
and always succeeds; with no separator the result is (basename, ""); a
nonempty extension starts with the separator; and the split point is the last
separator exactly when some character before it (after the last slash) is not
itself a dot — leading dots alone never start an extension. -/
theorem C9_splitext_amended (p : Str) :
    (splitext p).1 ++ (splitext p).2 = p ∧
    (rfind '.' p = none → splitext p = (p, [])) ∧
    ((splitext p).2 ≠ [] → (splitext p).2.head? = some '.') ∧
    (∀ i, rfind '/' p = none → rfind '.' p = some i →
      ((p.take i).all (fun c => c == '.')) = false →
      splitext p = (p.take i, p.drop i)) ∧
    (∀ i, rfind '/' p = none → rfind '.' p = some i →
      ((p.take i).all (fun c => c == '.')) = true →
      splitext p = (p, [])) ∧
    (∀ pre dd, (make_subst_dict p pre dd).lookup (str "NOTEXT")
          = some (splitext (basename p)).1 ∧
        (make_subst_dict p pre dd).lookup (str "EXT")
          = some (splitext (basename p)).2) := by
  refine ⟨?_, ?_, ?_, ?_, ?_, ?_⟩
  · simp only [splitext]
    split
    · simp
    · split
      · split
        · simp
        · exact List.take_append_drop _ _
      · simp
  · intro h
    simp [splitext, h]
  · simp only [splitext]
    split
    · simp
    · next dotIndex hr =>
      split
      · split
        · simp
        · intro hne
          rw [List.head?_drop]
          exact (rfind_spec '.' p dotIndex hr).2
      · simp
  · intro i hsep hdot hall
    have hidx : lastSepEnd p = 0 := by simp [lastSepEnd, hsep]
    simp [splitext, hdot, hidx, hall]
  · intro i hsep hdot hall
    have hidx : lastSepEnd p = 0 := by simp [lastSepEnd, hsep]
    simp [splitext, hdot, hidx, hall]
  · intro pre dd
    exact ⟨lookup_make_notext p pre dd, lookup_make_ext p pre dd⟩

/-- C9 witness: file.tar.gz splits at its last dot into file.tar and .gz. -/
theorem C9_witness :
    (rfind '/' (str "file.tar.gz") = none ∧ rfind '.' (str "file.tar.gz") = some 8 ∧
      ((str "file.tar.gz").take 8).all (fun c => c == '.') = false) ∧
    splitext (str "file.tar.gz") = (str "file.tar", str ".gz") := by
  refine ⟨⟨by decide, by decide, by decide⟩, ?_⟩
  have h := (C9_splitext_amended (str "file.tar.gz")).2.2.2.1 8 (by decide) (by decide) (by decide)
  rw [h]
  decide

/-- C10: For n in 1..6 resolving NUMn formats the counter zero-padded to a
minimum of n characters but never truncated: the result length is
max(n, len(repr)), the full representation (minus sign included) is returned
whenever it is at least n characters long, and nonnegative counters are the
representation left-padded with zeros. -/
theorem C10_numn_never_truncates (n : Nat) (num : Int) (fn pre dd : Str) (w : Nat)
    (h1 : 1 ≤ n) (h2 : n ≤ 6) :
    substituteGet (make_subst_dict fn pre dd) num w (str "NUM" ++ natRepr n)
      = .ok (pyFormat0d n num) ∧
    (pyFormat0d n num).length = max n (intRepr num).length ∧
    (n ≤ (intRepr num).length → pyFormat0d n num = intRepr num) ∧
    (0 ≤ num → pyFormat0d n num
        = List.replicate (n - (intRepr num).length) '0' ++ intRepr num) :=
  ⟨substituteGet_NUMn fn pre dd num w n h1 h2, pyFormat0d_length n num,
   fun h => pyFormat0d_no_trunc n num h, fun h => pyFormat0d_pad n num h⟩

/-- C10 witness: NUM2 renders the counter 987 as the untruncated "987". -/
theorem C10_witness :
    (1 ≤ 2 ∧ 2 ≤ 6) ∧
    substituteGet (make_subst_dict (str "a") [] []) 987 1 (str "NUM2")
      = .ok (str "987") := by
  refine ⟨⟨by decide, by decide⟩, ?_⟩
  have h := (C10_numn_never_truncates 2 987 (str "a") [] [] 1 (by decide) (by decide)).1
  rw [(by decide : str "NUM" ++ natRepr 2 = str "NUM2")] at h
  rw [h]
  exact congrArg Except.ok (by decide)

/-- C1 (amended): The counter advances by the fixed interval exactly once per
file that passes the timestamp step, not once per input file: the j-th
Substitute constructed in a run receives counter start + j*increment and the
loop counter always equals start + increment * (number built so far), but a
file skipped because its stat failed builds no Substitute and does not
advance the counter.  When the stat step is disabled (strftime off or
now-time in use) every file is counted, and the file at index i does receive
start + i*increment. -/
theorem C1_counters_amended (opts : Opts) (env : Env) (fs : FS) :
    (renameLoop opts env fs).count
      = opts.count + opts.interval * (renameLoop opts env fs).trace.length ∧
    (renameLoop opts env fs).trace.map TraceEntry.counter
      = counterSeq opts.count opts.interval (renameLoop opts env fs).trace.length ∧
    ((opts.strftime_enable && !opts.use_time_now) = false →
      (renameLoop opts env fs).trace.map TraceEntry.file = opts.names ∧
      (renameLoop opts env fs).trace.map TraceEntry.counter
        = counterSeq opts.count opts.interval opts.names.length) := by
  have base := loop_counters opts (computePre opts.names) (numWidthOf opts) env
    opts.names (initState fs opts) (by simp [initState]) (by simp [initState, counterSeq])
  refine ⟨?_, ?_, ?_⟩
  · rw [renameLoop]
    exact base.1
  · rw [renameLoop]
    exact base.2
  · intro hc
    have hf := loop_files opts (computePre opts.names) (numWidthOf opts) env hc
      opts.names (initState fs opts)
    simp only [initState, List.map_nil, List.nil_append] at hf
    have hfile : (renameLoop opts env fs).trace.map TraceEntry.file = opts.names := by
      rw [renameLoop]
      exact hf
    refine ⟨hfile, ?_⟩
    have hlen : (renameLoop opts env fs).trace.length = opts.names.length := by
      have hlm := congrArg List.length hfile
      simpa using hlm
    rw [← hlen, renameLoop]
    exact base.2

/-- C1 counterexample: in the batch [XYZZY, a] with start 1 and increment 1,
XYZZY has no stat (it is absent from the filesystem), so the file a at index
1 is given counter 1 rather than start + 1*increment = 2: the counter did
not advance for the skipped file. -/
theorem C1_counterexample :
    c1opts.names = [str "XYZZY", str "a"] ∧
    c1opts.count = 1 ∧ c1opts.interval = 1 ∧
    getmtime c1fs (str "XYZZY") = none ∧
    (renameLoop c1opts idEnv c1fs).trace.map (fun e => (e.file, e.counter))
      = [(str "a", (1 : Int))] ∧
    (1 : Int) ≠ c1opts.count + 1 * c1opts.interval := by
  decide

/-- C1 witness: with strftime substitution disabled both files are counted
and the counters are exactly 1, 2. -/
theorem C1_witness :
    (w1opts.strftime_enable && !w1opts.use_time_now) = false ∧
    (renameLoop w1opts idEnv w1fs).trace.map TraceEntry.counter = counterSeq 1 1 2 ∧
    counterSeq 1 1 2 = [1, 2] := by
  refine ⟨by decide, ?_, by decide⟩
  exact ((C1_counters_amended w1opts idEnv w1fs).2.2 (by decide)).2

/-- C2 counterexample: a batch whose final counter is 1000000 has
numberWidth 7; resolving NUM rewrites to NUM7, which is not one of
NUM1..NUM6, so resolution fails with KeyError NUM7 instead of formatting
the counter. -/
theorem C2_counterexample :
    countmaxOf c2opts = 1000000 ∧
    numWidthOf c2opts = 7 ∧
    substituteGet (make_subst_dict (str "a") (computePre c2opts.names) [])
        c2opts.count (numWidthOf c2opts) (str "NUM") = .error (str "NUM7") := by
  have hcm : countmaxOf c2opts = 1000000 := by norm_num [countmaxOf, c2opts]
  have hd : digitCount 1000000 = 7 := by
    rw [digitCount, if_neg (by norm_num)]
    have hl : Nat.log 10 1000000 = 6 :=
      Nat.log_eq_of_pow_le_of_lt_pow (by norm_num) (by norm_num)
    omega
  have hw : numWidthOf c2opts = 7 := by
    rw [numWidthOf, hcm, intRepr_length_nonneg _ (by norm_num)]
    rw [(by decide : Int.toNat 1000000 = 1000000), hd]
  refine ⟨hcm, hw, ?_⟩
  rw [hw, substituteGet, lookup_make_none _ _ _ _ (by decide)]
  have h7 : natRepr 7 = ['7'] := by decide
  simp [h7, str]

/-- C2 (amended): Resolving NUM always rewrites to NUM concatenated with the
batch numberWidth; when that width is between 1 and 6 the result is the
counter formatted as a decimal integer left-zero-padded to a minimum of
numberWidth characters — exactly numberWidth digits whenever the counter
representation fits — and NUM1..NUM6 render at their fixed width regardless
of the batch width.  (When the width is outside 1..6, resolution fails; see
the counterexample.) -/
theorem C2_num_alias_amended (fn pre dd : Str) (num : Int) (w : Nat) :
    substituteGet (make_subst_dict fn pre dd) num w (str "NUM")
      = substituteGet (make_subst_dict fn pre dd) num w (str "NUM" ++ natRepr w) ∧
    (1 ≤ w → w ≤ 6 →
      substituteGet (make_subst_dict fn pre dd) num w (str "NUM") = .ok (pyFormat0d w num)) ∧
    (∀ n, 1 ≤ n → n ≤ 6 →
      substituteGet (make_subst_dict fn pre dd) num w (str "NUM" ++ natRepr n)
        = .ok (pyFormat0d n num)) ∧
    (0 ≤ num → (intRepr num).length ≤ w → (pyFormat0d w num).length = w) := by
  refine ⟨substituteGet_NUM_rewrite fn pre dd num w,
    fun h1 h2 => substituteGet_NUM_width fn pre dd num w h1 h2,
    fun n h1 h2 => substituteGet_NUMn fn pre dd num w n h1 h2,
    fun h hl => ?_⟩
  rw [pyFormat0d_length]
  omega

/-- C2 witness: with batch width 2, NUM renders counter 3 as "03". -/
theorem C2_witness :
    (1 ≤ 2 ∧ 2 ≤ 6) ∧
    substituteGet (make_subst_dict (str "a") [] []) 3 2 (str "NUM") = .ok (str "03") := by
  refine ⟨⟨by decide, by decide⟩, ?_⟩
  have h := (C2_num_alias_amended (str "a") [] [] 3 2).2.1 (by decide) (by decide)
  rw [h]
  exact congrArg Except.ok (by decide)

/-- C3: numberWidth is the length of repr(countStart + increment*(fileCount-1)),
which for a nonnegative final counter is its decimal digit count, and every
Substitute constructed during the batch is given this same width — the width
never changes from file to file. -/
theorem C3_width_once (opts : Opts) (env : Env) (fs : FS) (h : 0 ≤ countmaxOf opts) :
    numWidthOf opts = digitCount (countmaxOf opts).toNat ∧
    (∀ e ∈ (renameLoop opts env fs).trace, e.width = numWidthOf opts) := by
  constructor
  · rw [numWidthOf]
    exact intRepr_length_nonneg _ h
  · rw [renameLoop]
    exact loop_width opts _ _ env opts.names (initState fs opts) (by simp [initState])

/-- C3 witness: two files starting at 1 give final counter 2 and width 1 for
the whole batch. -/
theorem C3_witness :
    0 ≤ countmaxOf w3opts ∧ numWidthOf w3opts = 1 ∧
    numWidthOf w3opts = digitCount (countmaxOf w3opts).toNat ∧
    (∀ e ∈ (renameLoop w3opts idEnv [(str "a", 0), (str "b", 0)]).trace,
      e.width = numWidthOf w3opts) := by
  refine ⟨by decide, by decide, ?_, ?_⟩
  · exact (C3_width_once w3opts idEnv [(str "a", 0), (str "b", 0)] (by decide)).1
  · exact (C3_width_once w3opts idEnv [(str "a", 0), (str "b", 0)] (by decide)).2

/-- C4: Resolving any placeholder name that is not one of the seven fixed
context keys and not NUM or NUM1..NUM6 always fails with KeyError carrying
the name, never silently; the syntactically legal empty placeholder always
fails; and a file whose template expansion fails is skipped (no move, no
filesystem change) while the batch continues through the remaining files and
exits nonzero. -/
theorem C4_unknown_fails :
    (∀ (fn pre dd : Str) (num : Int) (w : Nat) (a : Str),
      a ∉ sevenKeys → a ≠ str "NUM" →
      a ∉ [str "NUM1", str "NUM2", str "NUM3", str "NUM4", str "NUM5", str "NUM6"] →
      substituteGet (make_subst_dict fn pre dd) num w a = .error a) ∧
    (∀ (fn pre dd : Str) (num : Int) (w : Nat),
      substvars (substituteGet (make_subst_dict fn pre dd) num w) (str "%\x7b\x7d")
        = .error []) ∧
    ((renameLoop c4opts idEnv c4fs).errors = 2 ∧
     (renameLoop c4opts idEnv c4fs).moveCalls = [] ∧
     (renameLoop c4opts idEnv c4fs).fs = c4fs ∧
     (renameLoop c4opts idEnv c4fs).trace.map TraceEntry.file = c4opts.names ∧
     returnCode c4opts idEnv c4fs = 1) := by
  refine ⟨fun fn pre dd num w a h1 h2 h3 =>
      substituteGet_unknown fn pre dd num w a h1 h2 h3, ?_, by decide⟩
  intro fn pre dd num w
  have hr : substituteGet (make_subst_dict fn pre dd) num w [] = .error [] :=
    substituteGet_unknown fn pre dd num w [] (by decide) (by decide) (by decide)
  have hf : findVar (str "%\x7b\x7d") = some ([], [], []) := by decide
  rw [substvars, (by decide : (str "%\x7b\x7d").length = 3), substvarsAux_succ, hf]
  simp [hr]

/-- C4 witness: the unknown name XYZZY resolves to KeyError XYZZY. -/
theorem C4_witness :
    (str "XYZZY" ∉ sevenKeys ∧ str "XYZZY" ≠ str "NUM" ∧
      str "XYZZY" ∉ [str "NUM1", str "NUM2", str "NUM3", str "NUM4", str "NUM5", str "NUM6"]) ∧
    substituteGet (make_subst_dict (str "a") [] []) 1 1 (str "XYZZY")
      = .error (str "XYZZY") := by
  refine ⟨⟨by decide, by decide, by decide⟩, ?_⟩
  exact C4_unknown_fails.1 (str "a") [] [] 1 1 (str "XYZZY")
    (by decide) (by decide) (by decide)

/-- C5: A file whose computed destination already exists is skipped with no
move and no filesystem change while the counter still advances; a collision
with a destination created earlier in the same run is caught the same way and
the remaining files are still processed; and the batch exit status is 0
exactly when no per-file error occurred and 1 otherwise. -/
theorem C5_no_overwrite :
    (∀ (opts : Opts) (pre : Str) (w : Nat) (env : Env) (s : LoopState) (f : Str)
       (t : Nat) (nn : Str),
      (if (opts.strftime_enable && !opts.use_time_now) = true
       then getmtime s.fs f else some env.timeNow) = some t →
      substvars (substituteGet (make_subst_dict f pre opts.descriptor) s.count w)
          opts.template = .ok nn →
      fsExists s.fs (destPath opts env f t nn) = true →
      step opts pre w env s f =
        { s with count := s.count + opts.interval,
                 trace := s.trace ++ [TraceEntry.mk f s.count w],
                 errors := s.errors + 1 }) ∧
    ((renameLoop c5opts idEnv c5fs).errors = 1 ∧
     (renameLoop c5opts idEnv c5fs).moveCalls = [(str "x.q", str ".qe"), (str "z", str "e")] ∧
     fsExists (renameLoop c5opts idEnv c5fs).fs (str "y.q") = true ∧
     (renameLoop c5opts idEnv c5fs).fs = [(str "e", 0), (str ".qe", 0), (str "y.q", 0)] ∧
     returnCode c5opts idEnv c5fs = 1) ∧
    (∀ (opts : Opts) (env : Env) (fs : FS),
      ((renameLoop opts env fs).errors = 0 → returnCode opts env fs = 0) ∧
      ((renameLoop opts env fs).errors ≠ 0 → returnCode opts env fs = 1)) := by
  refine ⟨fun opts pre w env s f t nn ht hs he =>
      step_dest_exists opts pre w env s f t nn ht hs he, by decide,
    fun opts env fs => ⟨fun h => by rw [returnCode, if_pos h],
      fun h => by rw [returnCode, if_neg h]⟩⟩

/-- C5 witness: for y.q with destination ".qe" already on disk, the step
only advances the counter and the error count — no move, no output, no
filesystem change. -/
theorem C5_witness :
    ((if (c5opts.strftime_enable && !c5opts.use_time_now) = true
      then getmtime s5.fs (str "y.q") else some idEnv.timeNow) = some 0 ∧
     substvars (substituteGet (make_subst_dict (str "y.q") [] c5opts.descriptor) s5.count 1)
        c5opts.template = .ok (str ".qe") ∧
     fsExists s5.fs (destPath c5opts idEnv (str "y.q") 0 (str ".qe")) = true) ∧
    step c5opts [] 1 idEnv s5 (str "y.q")
      = { s5 with count := s5.count + c5opts.interval,
                  trace := s5.trace ++ [TraceEntry.mk (str "y.q") s5.count 1],
                  errors := s5.errors + 1 } := by
  refine ⟨⟨by decide, by decide, by decide⟩, ?_⟩
  exact C5_no_overwrite.1 c5opts [] 1 idEnv s5 (str "y.q") 0 (str ".qe")
    (by decide) (by decide) (by decide)

/-- C8: In dry-run mode the move primitive is never invoked and the final
filesystem equals the initial one; the line a file's step prints does not
depend on the dry-run flag at all; and every file that reaches the move step
prints exactly the mv line with shell-quoted source and destination. -/
theorem C8_dry_run :
    (∀ (opts : Opts) (env : Env) (fs : FS), opts.dry_run = true →
      (renameLoop opts env fs).fs = fs ∧ (renameLoop opts env fs).moveCalls = []) ∧
    (∀ (opts : Opts) (b : Bool) (pre : Str) (w : Nat) (env : Env) (s : LoopState) (f : Str),
      (step { opts with dry_run := b } pre w env s f).output
        = s.output ++ stepPrint opts pre w env s f) ∧
    (∀ (opts : Opts) (pre : Str) (w : Nat) (env : Env) (s : LoopState) (f : Str)
       (t : Nat) (nn : Str),
      (if (opts.strftime_enable && !opts.use_time_now) = true
       then getmtime s.fs f else some env.timeNow) = some t →
      substvars (substituteGet (make_subst_dict f pre opts.descriptor) s.count w)
          opts.template = .ok nn →
      fsExists s.fs (destPath opts env f t nn) = false →
      (step opts pre w env s f).output
        = s.output ++ [moveLine f (destPath opts env f t nn)]) := by
  refine ⟨?_, ?_, fun opts pre w env s f t nn ht hs he =>
    step_move_reach opts pre w env s f t nn ht hs he⟩
  · intro opts env fs h
    have hd := loop_dry opts (computePre opts.names) (numWidthOf opts) env h
      opts.names (initState fs opts)
    rw [renameLoop]
    exact ⟨hd.1, hd.2⟩
  · intro opts b pre w env s f
    rw [step_output { opts with dry_run := b } pre w env s f, stepPrint_dry]

/-- C8 witness: a dry run leaves the filesystem untouched, calls no move,
and still prints the mv description. -/
theorem C8_witness :
    w8opts.dry_run = true ∧
    (renameLoop w8opts idEnv w8fs).fs = w8fs ∧
    (renameLoop w8opts idEnv w8fs).moveCalls = [] ∧
    (renameLoop w8opts idEnv w8fs).output = [str "mv a b"] := by
  refine ⟨by decide, ?_, ?_, by decide⟩
  · exact (C8_dry_run.1 w8opts idEnv w8fs (by decide)).1
  · exact (C8_dry_run.1 w8opts idEnv w8fs (by decide)).2

end Renuniq
